import Mathlib

/-!
Verification of the cs144 lower-stack components against their source:
`Wrap32` (wrapping_integers), `Reassembler` (reassembler.cc) and
`NetworkInterface` (network_interface).  Machine integers are embedded as
`Nat`; `4294967296` is 2^32 (the C source's `1UL << 32`) and
`18446744073709551616` is 2^64, with an explicit `%` wherever the C
computation wraps.
-/

namespace Wrap32

/-- Translation of `Wrap32::wrap`: `zero_point + uint32(n % 2^32)`.
The `Wrap32 + uint32` operator is declared in `wrapping_integers.hh`;
modelled from the spec as 32-bit wraparound addition. -/
def wrap (n zero_point : Nat) : Nat :=
  (zero_point + n % 4294967296) % 4294967296

/-- Translation of `Wrap32::unwrap`.  In the C source
`(uint32_t)(1UL << 32)` is `0`, so `check + (uint32_t)(1UL<<32) - raw_value_`
is 32-bit wraparound subtraction; on `Nat` arguments below 2^32 this equals
`(check + 2^32 - raw_value_) % 2^32`.  The final addition
`checkpoint + right` is a `uint64_t` addition, hence the `% 2^64`. -/
def unwrap (raw_value zero_point checkpoint : Nat) : Nat :=
  let check := (zero_point + checkpoint % 4294967296) % 4294967296
  let left := (check + 4294967296 - raw_value) % 4294967296
  let right := (raw_value + 4294967296 - check) % 4294967296
  if left < right ∧ left ≤ checkpoint then checkpoint - left
  else (checkpoint + right) % 18446744073709551616

/-- Mirror of `unwrap` over `Int`, in which the guarded branch
`checkpoint - left` is genuine integer subtraction (no truncation), used to
state that the C `uint64_t` subtraction never underflows. -/
def unwrapInt (raw_value zero_point checkpoint : Nat) : Int :=
  let check := (zero_point + checkpoint % 4294967296) % 4294967296
  let left := (check + 4294967296 - raw_value) % 4294967296
  let right := (raw_value + 4294967296 - check) % 4294967296
  if left < right ∧ left ≤ checkpoint then (checkpoint : Int) - (left : Int)
  else ((checkpoint : Int) + (right : Int)) % 18446744073709551616

end Wrap32

/-- Distance between two naturals, `|a - b|` expressed with truncated
subtraction. -/
def ndist (a b : Nat) : Nat := (a - b) + (b - a)

/-- Wrapping `uint64_t` subtraction `a - b`, for operands below 2^64. -/
def wsub64 (a b : Nat) : Nat :=
  (a + 18446744073709551616 - b % 18446744073709551616) % 18446744073709551616

/-- Modelled from the spec: the output byte stream ("Writer") collaborator of
the reassembler (its ByteStream implementation is not part of the given
sources).  It exposes `push` (appends), `available_capacity` (remaining bytes
before blocking the producer) and `close` (marks that no more bytes will be
written). -/
structure ByteStream.Writer where
  capacity : Nat
  buf : List Char
  closed : Bool
  deriving DecidableEq

/-- Modelled from the spec: remaining bytes the Writer can accept. -/
def ByteStream.Writer.available_capacity (w : ByteStream.Writer) : Nat := w.capacity - w.buf.length

/-- Modelled from the spec: `push` appends bytes to the stream. -/
def ByteStream.Writer.push (w : ByteStream.Writer) (data : List Char) :
    ByteStream.Writer :=
  { w with buf := w.buf ++ data }

/-- Modelled from the spec: `close` marks the stream closed. -/
def ByteStream.Writer.close (w : ByteStream.Writer) : ByteStream.Writer := { w with closed := true }

/-- State of `Reassembler` (members of the class in `reassembler.hh`):
cursor, pending buffer of `(left, right, payload)` entries with CLOSED index
ranges `[left, right]`, the pending-byte counter `store_data_size_` and the
end-of-stream flag `had_last_`. -/
structure Reassembler where
  next_stream_index : Nat
  store_buffer : List (Nat × Nat × List Char)
  store_data_size : Nat
  had_last : Bool
  deriving DecidableEq

namespace Reassembler

/-- The `l` field of buffer entry `i` (`get<0>`); out-of-range access (which
is undefined behaviour in the C++ source) reads a default node. -/
def entL (buffer : List (Nat × Nat × List Char)) (i : Nat) : Nat :=
  (buffer.getD i (0, 0, [])).1

/-- The `r` field of buffer entry `i` (`get<1>`); out-of-range access (which
is undefined behaviour in the C++ source) reads a default node. -/
def entR (buffer : List (Nat × Nat × List Char)) (i : Nat) : Nat :=
  (buffer.getD i (0, 0, [])).2.1

/-- Translation of `std::string::resize`: truncate, or extend with NUL
bytes. -/
def resizeStr (s : List Char) (n : Nat) : List Char :=
  s.take n ++ List.replicate (n - s.length) (Char.ofNat 0)

/-- The libstdc++ `__lower_bound` binary-search loop, with the comparator of
`Reassembler::store_data`: `comp(node, v) = node.r < v`.  The fuel argument
starts at `len` and never runs out before `len = 0`. -/
def lbGo (buffer : List (Nat × Nat × List Char)) (v : Nat) :
    Nat → Nat → Nat → Nat
  | 0, first, _ => first
  | fuel + 1, first, len =>
      if len = 0 then first
      else
        let half := len / 2
        if entR buffer (first + half) < v then
          lbGo buffer v fuel (first + half + 1) (len - half - 1)
        else lbGo buffer v fuel first half

/-- `std::lower_bound` over the whole buffer, as called in `store_data`. -/
def lowerBoundIdx (buffer : List (Nat × Nat × List Char)) (v : Nat) : Nat :=
  lbGo buffer v buffer.length 0 buffer.length

/-- The libstdc++ `__upper_bound` binary-search loop with the comparator of
`Reassembler::store_data`: `comp(v, node) = node.l < v` (note the source
passes the arguments to the comparator in this inverted orientation, so the
range is not partitioned for it; the loop below is what the library then
executes). -/
def ubGo (buffer : List (Nat × Nat × List Char)) (v : Nat) :
    Nat → Nat → Nat → Nat
  | 0, first, _ => first
  | fuel + 1, first, len =>
      if len = 0 then first
      else
        let half := len / 2
        if entL buffer (first + half) < v then ubGo buffer v fuel first half
        else ubGo buffer v fuel (first + half + 1) (len - half - 1)

/-- `std::upper_bound` from index `first` to the end of the buffer, as called
in `store_data`. -/
def upperBoundIdx (buffer : List (Nat × Nat × List Char)) (first v : Nat) :
    Nat :=
  ubGo buffer v (buffer.length - first) first (buffer.length - first)

/-- Translation of `Reassembler::store_data` acting on the buffer and the
pending-byte counter.  `data_begin`/`data_end` are the CLOSED range bounds.
Notes kept from the source: the merged payload `temp_s` is built and then
discarded (the emplace stores `data`, not `temp_s`); the counter is only ever
decremented (by the sizes of the erased nodes), never incremented; when
`right != left` with `right` the end iterator the source dereferences the end
iterator (undefined behaviour), embedded here as the default node. -/
def store_data (data : List Char) (data_begin data_end : Nat)
    (buffer : List (Nat × Nat × List Char)) (counter : Nat) :
    List (Nat × Nat × List Char) × Nat :=
  let li := lowerBoundIdx buffer data_begin
  let ri := upperBoundIdx buffer li data_end
  let dl := if li ≠ buffer.length then min data_begin (entL buffer li)
            else data_begin
  let dr := if ri ≠ li then max data_end (entR buffer ri) else data_end
  if data.length = dr - dl + 1 ∧ li = ri then
    (buffer.take li ++ [(dl, dr, data)] ++ buffer.drop li, counter)
  else
    let removed := (buffer.drop li).take (ri - li)
    let counter2 := removed.foldl (fun c e => wsub64 c e.2.2.length) counter
    (buffer.take li ++ [(dl, dr, data)] ++ buffer.drop ri, counter2)

/-- Translation of `Reassembler::push_data_to_stream`: advance the cursor and
push the bytes to the output. -/
def push_data_to_stream (data : List Char) (st : Reassembler)
    (output : ByteStream.Writer) : Reassembler × ByteStream.Writer :=
  ({ st with next_stream_index := st.next_stream_index + data.length },
   output.push data)

/-- The while-loop of `Reassembler::push_store_data_to_stream`: flush
leading buffer entries that start exactly at the cursor, decrementing the
pending-byte counter (a wrapping `uint64_t` subtraction). -/
def drainLoop : List (Nat × Nat × List Char) → Nat → Nat → ByteStream.Writer →
    List (Nat × Nat × List Char) × Nat × Nat × ByteStream.Writer
  | [], counter, next, out => ([], counter, next, out)
  | e :: rest, counter, next, out =>
      if e.1 = next then
        drainLoop rest (wsub64 counter e.2.2.length) (next + e.2.2.length)
          (out.push e.2.2)
      else (e :: rest, counter, next, out)

/-- Translation of `Reassembler::push_store_data_to_stream`: drain, then
close the output when the terminal range has been seen and the buffer is
empty. -/
def push_store_data_to_stream (st : Reassembler) (output : ByteStream.Writer) :
    Reassembler × ByteStream.Writer :=
  let r := drainLoop st.store_buffer st.store_data_size st.next_stream_index
    output
  let st2 : Reassembler :=
    { st with
      store_buffer := r.1,
      store_data_size := r.2.1,
      next_stream_index := r.2.2.1 }
  if st2.had_last ∧ st2.store_buffer = [] then (st2, ByteStream.Writer.close r.2.2.2)
  else (st2, r.2.2.2)

/-- Translation of `Reassembler::insert` (the `std::cout` tracing in the
source has no state effect and is omitted).  Note that after the left trim
the source updates `first_index` but not `data_left`, and the right trim
resizes using the stale `data_left`. -/
def insert (first_index : Nat) (data : List Char) (is_last_substring : Bool)
    (st : Reassembler) (output : ByteStream.Writer) : Reassembler × ByteStream.Writer :=
  if data.length = 0 then
    if is_last_substring then (st, ByteStream.Writer.close output) else (st, output)
  else
    let data_left := first_index
    let data_right := first_index + data.length
    let enable_end_index := st.next_stream_index + output.available_capacity
    if data_right < st.next_stream_index ∨ enable_end_index ≤ first_index then
      (st, output)
    else
      let data1 := if data_left < st.next_stream_index then
          data.drop (st.next_stream_index - first_index)
        else data
      let data_right2 := if enable_end_index < data_right then
          enable_end_index
        else data_right
      let data2 := if enable_end_index < data_right then
          resizeStr data1 (enable_end_index - data_left)
        else data1
      let is_last2 := if enable_end_index < data_right then false
        else is_last_substring
      let stage :=
        if data_left = st.next_stream_index ∧
            (st.store_buffer = [] ∨ data_right2 < entR st.store_buffer 0) then
          let data3 := if st.store_buffer = [] then data2
            else resizeStr data2 (min data_right2 (entL st.store_buffer 0)
              - data_left)
          push_data_to_stream data3 st output
        else
          let sd := store_data data2 data_left (data_right2 - 1)
            st.store_buffer st.store_data_size
          ({ st with store_buffer := sd.1, store_data_size := sd.2 }, output)
      let st3 := { stage.1 with had_last := stage.1.had_last || is_last2 }
      push_store_data_to_stream st3 stage.2

/-- Translation of `Reassembler::bytes_pending`: returns the counter. -/
def bytes_pending (st : Reassembler) : Nat := st.store_data_size

end Reassembler

/-- The Ethernet broadcast address ff:ff:ff:ff:ff:ff, as a 48-bit number.
Modelled from the spec: `ethernet_header.hh` is not among the given
sources. -/
def ETHERNET_BROADCAST : Nat := 281474976710655

/-- Modelled from the spec: the Ethernet protocol type tags from
`ethernet_header.hh` (0x0800 and 0x0806). -/
def EthernetHeader.TYPE_IPv4 : Nat := 2048

/-- Modelled from the spec: the ARP protocol type tag. -/
def EthernetHeader.TYPE_ARP : Nat := 2054

/-- Modelled from the spec: an ARP message carrying opcode, sender hardware
and protocol addresses, and target hardware and protocol addresses
(`arp_message.hh` is not among the given sources). -/
structure ARPMessage where
  opcode : Nat
  sender_ethernet_address : Nat
  sender_ip_address : Nat
  target_ethernet_address : Nat
  target_ip_address : Nat
  deriving DecidableEq

/-- Modelled from the spec: the ARP request opcode. -/
def ARPMessage.OPCODE_REQUEST : Nat := 1

/-- Modelled from the spec: the ARP reply opcode. -/
def ARPMessage.OPCODE_REPLY : Nat := 2

/-- Modelled from the spec: an Ethernet frame payload together with its
byte-exact parse outcome — parsing a payload as an IPv4 datagram (identified
by a number) succeeds exactly on `ipv4` payloads, and as an ARP message
exactly on `arp` payloads. -/
inductive EPayload where
  | ipv4 (dgram : Nat)
  | arp (msg : ARPMessage)
  deriving DecidableEq

/-- Modelled from the spec: an Ethernet frame with destination, source, type
tag and payload. -/
structure EthernetFrame where
  dst : Nat
  src : Nat
  typ : Nat
  payload : EPayload
  deriving DecidableEq

/-- Lookup in a `std::map` embedded as an association list (`contains` /
`find`). -/
def mfind {A : Type} : List (Nat × A) → Nat → Option A
  | [], _ => none
  | (k1, v1) :: tl, k => if k1 = k then some v1 else mfind tl k

/-- Translation of `std::map::insert`: insert in key order, but leave the map
unchanged when the key is already present (insert does NOT overwrite). -/
def minsert {A : Type} : List (Nat × A) → Nat → A → List (Nat × A)
  | [], k, v => [(k, v)]
  | (k1, v1) :: tl, k, v =>
      if k < k1 then (k, v) :: (k1, v1) :: tl
      else if k = k1 then (k1, v1) :: tl
      else (k1, v1) :: minsert tl k v

/-- Translation of `std::map::erase(key)`. -/
def merase {A : Type} : List (Nat × A) → Nat → List (Nat × A)
  | [], _ => []
  | (k1, v1) :: tl, k => if k1 = k then tl else (k1, v1) :: merase tl k

/-- Translation of `waited_dgrams_[ip].push_back(dgram)`: `operator[]`
default-constructs an empty list when the key is missing, then the datagram
is appended. -/
def mappend : List (Nat × List Nat) → Nat → Nat → List (Nat × List Nat)
  | [], k, d => [(k, [d])]
  | (k1, ds) :: tl, k, d =>
      if k < k1 then (k, [d]) :: (k1, ds) :: tl
      else if k = k1 then (k1, ds ++ [d]) :: tl
      else (k1, ds) :: mappend tl k d

/-- State of `NetworkInterface` (members of the class in
`network_interface.hh`, with the container types embedded as sorted
association lists / a list used as the frame queue): the interface's
addresses, the resolution cache `ip2ether_` mapping an IP to (Ethernet
address, age in ms), the ARP request timers `arp_timer_`, the pending
datagrams `waited_dgrams_` and the outbound frame queue `out_frames_`. -/
structure NetworkInterface where
  ethernet_address : Nat
  ip_address : Nat
  ip2ether : List (Nat × Nat × Nat)
  arp_timer : List (Nat × Nat)
  waited_dgrams : List (Nat × List Nat)
  out_frames : List EthernetFrame
  deriving DecidableEq

namespace NetworkInterface

/-- Translation of `NetworkInterface::send_datagram`: send immediately via a
cached mapping, otherwise broadcast an ARP request unless one is already
outstanding, queueing the datagram either way. -/
def send_datagram (st : NetworkInterface) (dgram : Nat) (next_hop : Nat) :
    NetworkInterface :=
  match mfind st.ip2ether next_hop with
  | some entry =>
      { st with
        out_frames := st.out_frames ++
          [{ dst := entry.1, src := st.ethernet_address,
             typ := EthernetHeader.TYPE_IPv4,
             payload := EPayload.ipv4 dgram }] }
  | none =>
      match mfind st.arp_timer next_hop with
      | some _ =>
          { st with waited_dgrams := mappend st.waited_dgrams next_hop dgram }
      | none =>
          { st with
            out_frames := st.out_frames ++
              [{ dst := ETHERNET_BROADCAST, src := st.ethernet_address,
                 typ := EthernetHeader.TYPE_ARP,
                 payload := EPayload.arp
                   { opcode := ARPMessage.OPCODE_REQUEST,
                     sender_ethernet_address := st.ethernet_address,
                     sender_ip_address := st.ip_address,
                     target_ethernet_address := 0,
                     target_ip_address := next_hop } }],
            arp_timer := minsert st.arp_timer next_hop 0,
            waited_dgrams := minsert st.waited_dgrams next_hop [dgram] }

/-- Translation of `NetworkInterface::recv_frame`: ignore frames not for us;
deliver parsed IPv4 payloads; on parsed ARP payloads `std::map::insert` the
sender mapping (no overwrite), answer requests for our IP, and on replies
re-insert, flush the queued datagrams via `send_datagram` in order and erase
the queue entry. -/
def recv_frame (st : NetworkInterface) (frame : EthernetFrame) :
    NetworkInterface × Option Nat :=
  if frame.dst ≠ st.ethernet_address ∧ frame.dst ≠ ETHERNET_BROADCAST then
    (st, none)
  else if frame.typ = EthernetHeader.TYPE_IPv4 then
    match frame.payload with
    | EPayload.ipv4 d => (st, some d)
    | EPayload.arp _ => (st, none)
  else if frame.typ = EthernetHeader.TYPE_ARP then
    match frame.payload with
    | EPayload.ipv4 _ => (st, none)
    | EPayload.arp msg =>
        let st1 := { st with
          ip2ether := minsert st.ip2ether msg.sender_ip_address
            (msg.sender_ethernet_address, 0) }
        if msg.opcode = ARPMessage.OPCODE_REQUEST then
          if msg.target_ip_address = st.ip_address then
            ({ st1 with
               out_frames := st1.out_frames ++
                 [{ dst := msg.sender_ethernet_address,
                    src := st.ethernet_address,
                    typ := EthernetHeader.TYPE_ARP,
                    payload := EPayload.arp
                      { opcode := ARPMessage.OPCODE_REPLY,
                        sender_ethernet_address := st.ethernet_address,
                        sender_ip_address := st.ip_address,
                        target_ethernet_address := msg.sender_ethernet_address,
                        target_ip_address := msg.sender_ip_address } }] },
             none)
          else (st1, none)
        else if msg.opcode = ARPMessage.OPCODE_REPLY then
          let st2 := { st1 with
            ip2ether := minsert st1.ip2ether msg.sender_ip_address
              (msg.sender_ethernet_address, 0) }
          let dgrams := (mfind st2.waited_dgrams msg.sender_ip_address).getD []
          let st3 := dgrams.foldl
            (fun s d => send_datagram s d msg.sender_ip_address) st2
          ({ st3 with
             waited_dgrams := merase st3.waited_dgrams
               msg.sender_ip_address },
           none)
        else (st1, none)
  else (st, none)

/-- The first loop of `NetworkInterface::tick`: age every resolution-cache
entry by `ms` and erase those whose age reaches 30000 ms. -/
def tickCache : List (Nat × Nat × Nat) → Nat → List (Nat × Nat × Nat)
  | [], _ => []
  | (ip, e, age) :: tl, ms =>
      if 30000 ≤ age + ms then tickCache tl ms
      else (ip, e, age + ms) :: tickCache tl ms

/-- The second loop of `NetworkInterface::tick`: age every pending ARP
request timer by `ms` and erase those whose age reaches 5000 ms. -/
def tickTimer : List (Nat × Nat) → Nat → List (Nat × Nat)
  | [], _ => []
  | (ip, age) :: tl, ms =>
      if 5000 ≤ age + ms then tickTimer tl ms
      else (ip, age + ms) :: tickTimer tl ms

/-- Translation of `NetworkInterface::tick`. -/
def tick (st : NetworkInterface) (ms : Nat) : NetworkInterface :=
  { st with
    ip2ether := tickCache st.ip2ether ms,
    arp_timer := tickTimer st.arp_timer ms }

/-- Translation of `NetworkInterface::maybe_send`: pop the oldest outbound
frame, if any. -/
def maybe_send (st : NetworkInterface) :
    Option EthernetFrame × NetworkInterface :=
  match st.out_frames with
  | [] => (none, st)
  | f :: rest => (some f, { st with out_frames := rest })

end NetworkInterface

/-- Keys of an association-list map are strictly sorted — the
representation invariant of the embedded `std::map`s. -/
def keySorted {A : Type} (l : List (Nat × A)) : Prop :=
  l.Pairwise (fun a b => a.1 < b.1)

/-- C1 (amended): for a checkpoint small enough that
the `checkpoint + right` branch cannot overflow `uint64_t`
(`checkpoint + 2^32 < 2^64`), `unwrap (wrap n z) z c` returns the 64-bit
value congruent to `n` modulo 2^32 that is numerically closest to `c`, and
when the two nearest candidates are equidistant from `c` it returns the
LARGER one. -/
theorem C1_unwrap_wrap_closest (n z c : Nat)
    (hc : c + 4294967296 < 18446744073709551616) :
    (Wrap32.unwrap (Wrap32.wrap n z) z c) % 4294967296 = n % 4294967296 ∧
    Wrap32.unwrap (Wrap32.wrap n z) z c < 18446744073709551616 ∧
    ∀ m : Nat, m < 18446744073709551616 → m % 4294967296 = n % 4294967296 →
      ndist c (Wrap32.unwrap (Wrap32.wrap n z) z c) ≤ ndist c m ∧
      (ndist c m = ndist c (Wrap32.unwrap (Wrap32.wrap n z) z c) →
        m ≤ Wrap32.unwrap (Wrap32.wrap n z) z c) := by
  simp only [Wrap32.unwrap, Wrap32.wrap, ndist]
  split_ifs with h
  · refine ⟨by omega, by omega, fun m hm1 hm2 => ⟨by omega, fun hd => by omega⟩⟩
  · refine ⟨by omega, by omega, fun m hm1 hm2 => ⟨by omega, fun hd => by omega⟩⟩

/-- Witness for C1: the amended theorem applied at `n = 5`, `z = 3`,
`c = 1000000`. -/
theorem C1_unwrap_wrap_closest_witness :
    (Wrap32.unwrap (Wrap32.wrap 5 3) 3 1000000) % 4294967296 = 5 % 4294967296 ∧
    Wrap32.unwrap (Wrap32.wrap 5 3) 3 1000000 < 18446744073709551616 ∧
    ∀ m : Nat, m < 18446744073709551616 → m % 4294967296 = 5 % 4294967296 →
      ndist 1000000 (Wrap32.unwrap (Wrap32.wrap 5 3) 3 1000000) ≤ ndist 1000000 m ∧
      (ndist 1000000 m = ndist 1000000 (Wrap32.unwrap (Wrap32.wrap 5 3) 3 1000000) →
        m ≤ Wrap32.unwrap (Wrap32.wrap 5 3) 3 1000000) :=
  C1_unwrap_wrap_closest 5 3 1000000 (by decide)

/-- Counterexample to C1 as stated: at `n = 2^31`, `z = 0`, `c = 2^32` the two
candidates `2147483648` and `6442450944` are equidistant from the checkpoint,
and the code returns the larger one, not the smaller. -/
theorem C1_tie_counterexample :
    Wrap32.unwrap (Wrap32.wrap 2147483648 0) 0 4294967296 = 6442450944 ∧
    ndist 4294967296 2147483648 = ndist 4294967296 6442450944 ∧
    (2147483648 : Nat) % 4294967296 = 2147483648 % 4294967296 ∧
    (2147483648 : Nat) < 6442450944 := by
  refine ⟨by decide, by decide, rfl, by decide⟩

/-- C10: `unwrap` is total and never underflows: for every `raw_value`,
`zero_point` and 64-bit `checkpoint` it agrees with its `Int` mirror (whose
guarded branch subtracts over `Int`), that mirror is non-negative, and the
result fits in 64 bits. -/
theorem C10_unwrap_total_no_underflow (raw_value zero_point checkpoint : Nat)
    (hc : checkpoint < 18446744073709551616) :
    Wrap32.unwrapInt raw_value zero_point checkpoint =
      (Wrap32.unwrap raw_value zero_point checkpoint : Int) ∧
    0 ≤ Wrap32.unwrapInt raw_value zero_point checkpoint ∧
    Wrap32.unwrap raw_value zero_point checkpoint < 18446744073709551616 := by
  simp only [Wrap32.unwrap, Wrap32.unwrapInt]
  split_ifs with h
  · refine ⟨by omega, by omega, by omega⟩
  · refine ⟨by omega, by omega, by omega⟩

/-- Witness for C10 at `raw_value = 17`, `zero_point = 40`, `checkpoint = 3`. -/
theorem C10_unwrap_total_no_underflow_witness :
    Wrap32.unwrapInt 17 40 3 = (Wrap32.unwrap 17 40 3 : Int) ∧
    0 ≤ Wrap32.unwrapInt 17 40 3 ∧
    Wrap32.unwrap 17 40 3 < 18446744073709551616 :=
  C10_unwrap_total_no_underflow 17 40 3 (by decide)

/-- C2 (code bug): `store_data_size_` is never incremented anywhere in
`reassembler.cc` (it is only decremented when buffered nodes are erased or
flushed), so after buffering one byte `bytes_pending()` returns `0` while the
pending buffer holds a 1-byte range.  Failing input: `insert(1, "b", false)`
on a fresh reassembler with output capacity 10. -/
theorem C2_pending_counter_diverges :
    Reassembler.bytes_pending
        (Reassembler.insert 1 ['b'] false ⟨0, [], 0, false⟩ ⟨10, [], false⟩).1
      = 0 ∧
    (((Reassembler.insert 1 ['b'] false ⟨0, [], 0, false⟩
        ⟨10, [], false⟩).1.store_buffer).map (fun e => e.2.2.length)).sum
      = 1 := by
  refine ⟨rfl, rfl⟩

/-- C3: inserting `("abc", 0, not last)` then `("bcd", 1, not last)` into an
empty reassembler whose output has capacity at least 4 leaves the flushed
output `"abc"` and a single pending payload `"d"`, so the combined
pending-plus-flushed bytes are exactly `"abcd"`, each byte appearing once. -/
theorem C3_overlap_combined_abcd (cap : Nat) (hcap : 4 ≤ cap) :
    (Reassembler.insert 1 ['b','c','d'] false
        (Reassembler.insert 0 ['a','b','c'] false ⟨0, [], 0, false⟩
          ⟨cap, [], false⟩).1
        (Reassembler.insert 0 ['a','b','c'] false ⟨0, [], 0, false⟩
          ⟨cap, [], false⟩).2).2.buf ++
      ((Reassembler.insert 1 ['b','c','d'] false
        (Reassembler.insert 0 ['a','b','c'] false ⟨0, [], 0, false⟩
          ⟨cap, [], false⟩).1
        (Reassembler.insert 0 ['a','b','c'] false ⟨0, [], 0, false⟩
          ⟨cap, [], false⟩).2).1.store_buffer.map (fun e => e.2.2)).flatten
      = ['a', 'b', 'c', 'd'] := by
  have hc0 : ¬ (cap = 0) := by omega
  have hc3 : ¬ (cap < 3) := by omega
  have h1 : Reassembler.insert 0 ['a','b','c'] false ⟨0, [], 0, false⟩
      ⟨cap, [], false⟩ = (⟨3, [], 0, false⟩, ⟨cap, ['a','b','c'], false⟩) := by
    simp only [Reassembler.insert, ByteStream.Writer.available_capacity,
      Reassembler.push_data_to_stream, Reassembler.push_store_data_to_stream,
      Reassembler.drainLoop, ByteStream.Writer.push, Reassembler.entR,
      Reassembler.entL]
    norm_num [hc0, hc3]
  rw [h1]
  have hA : ¬ (3 + (cap - 3) ≤ 1) := by omega
  have hB : ¬ (3 + (cap - 3) < 4) := by omega
  simp only [Reassembler.insert, ByteStream.Writer.available_capacity,
    Reassembler.push_data_to_stream, Reassembler.push_store_data_to_stream,
    Reassembler.drainLoop, ByteStream.Writer.push, Reassembler.entR,
    Reassembler.entL, Reassembler.store_data, Reassembler.lowerBoundIdx,
    Reassembler.upperBoundIdx, Reassembler.lbGo, Reassembler.ubGo]
  norm_num [hA, hB]
  simp [Reassembler.drainLoop]

/-- Witness for C3 at capacity 4. -/
theorem C3_overlap_combined_abcd_witness :
    (Reassembler.insert 1 ['b','c','d'] false
        (Reassembler.insert 0 ['a','b','c'] false ⟨0, [], 0, false⟩
          ⟨4, [], false⟩).1
        (Reassembler.insert 0 ['a','b','c'] false ⟨0, [], 0, false⟩
          ⟨4, [], false⟩).2).2.buf ++
      ((Reassembler.insert 1 ['b','c','d'] false
        (Reassembler.insert 0 ['a','b','c'] false ⟨0, [], 0, false⟩
          ⟨4, [], false⟩).1
        (Reassembler.insert 0 ['a','b','c'] false ⟨0, [], 0, false⟩
          ⟨4, [], false⟩).2).1.store_buffer.map (fun e => e.2.2)).flatten
      = ['a', 'b', 'c', 'd'] :=
  C3_overlap_combined_abcd 4 (by decide)

/-- Counterexample to C4 as stated: the source drops a range only when
`data_right < next_stream_index_` (strictly), so a non-empty range with
`range.end = cursor` — which is entirely behind the cursor — is NOT a no-op:
here `insert(0, "x", false)` with cursor 1 plants a degenerate `(0, 0, "")`
entry in the pending buffer. -/
theorem C4_range_end_eq_cursor_counterexample :
    (0 : Nat) + (['x'] : List Char).length ≤ 1 ∧
    (Reassembler.insert 0 ['x'] false ⟨1, [], 0, false⟩
        ⟨10, ['a'], false⟩).1.store_buffer = [(0, 0, [])] := by
  refine ⟨by decide, rfl⟩

/-- C4 (amended): a call with non-empty bytes is a silent no-op — output and
every part of the reassembler state unchanged — when its range satisfies
`range.end < cursor` (STRICTLY behind; at `range.end = cursor` the code
mutates the pending buffer instead) or `cursor + available_capacity ≤
range.start`. -/
theorem C4_out_of_window_noop (first_index : Nat) (data : List Char)
    (is_last : Bool) (st : Reassembler) (out : ByteStream.Writer)
    (hne : data ≠ [])
    (hdrop : first_index + data.length < st.next_stream_index ∨
      st.next_stream_index + out.available_capacity ≤ first_index) :
    Reassembler.insert first_index data is_last st out = (st, out) := by
  have hlen : ¬ data.length = 0 := by
    simpa using hne
  unfold Reassembler.insert
  rw [if_neg hlen, if_pos hdrop]

/-- Witness for C4 (amended): inserting `"y"` at index 50 with cursor 0 and
available capacity 10 is dropped with no state change. -/
theorem C4_out_of_window_noop_witness :
    Reassembler.insert 50 ['y'] false ⟨0, [], 0, false⟩ ⟨10, [], false⟩
      = (⟨0, [], 0, false⟩, ⟨10, [], false⟩) :=
  C4_out_of_window_noop 50 ['y'] false ⟨0, [], 0, false⟩ ⟨10, [], false⟩
    (by decide) (by decide)

/-- C9: inserting empty bytes with `is_last` true closes the output stream
immediately and changes nothing else: the reassembler state (pending buffer,
cursor, counter, flag) is returned untouched, for every state, including
states with ranges still pending. -/
theorem C9_empty_last_closes (first_index : Nat) (st : Reassembler)
    (out : ByteStream.Writer) :
    Reassembler.insert first_index [] true st out
      = (st, ByteStream.Writer.close out) := rfl

/-- Keys absent from an association list are not found. -/
theorem mfind_eq_none {A : Type} (l : List (Nat × A)) (k : Nat)
    (h : ∀ p ∈ l, p.1 ≠ k) : mfind l k = none := by
  induction l with
  | nil => rfl
  | cons hd tl ih =>
      obtain ⟨k1, v1⟩ := hd
      simp only [mfind]
      rw [if_neg (h (k1, v1) (by simp))]
      exact ih fun p hp => h p (List.mem_cons_of_mem _ hp)

/-- Members of `minsert l k v` come from `l` or are the new pair. -/
theorem mem_minsert {A : Type} (l : List (Nat × A)) (k : Nat) (v : A)
    (q : Nat × A) (h : q ∈ minsert l k v) : q ∈ l ∨ q = (k, v) := by
  induction l with
  | nil =>
      simp only [minsert, List.mem_singleton] at h
      exact Or.inr h
  | cons hd tl ih =>
      obtain ⟨k1, v1⟩ := hd
      simp only [minsert] at h
      split_ifs at h with h1 h2
      · rcases List.mem_cons.mp h with h' | h'
        · exact Or.inr h'
        · exact Or.inl h'
      · exact Or.inl h
      · rcases List.mem_cons.mp h with h' | h'
        · exact Or.inl (by simp [h'])
        · rcases ih h' with h'' | h''
          · exact Or.inl (List.mem_cons_of_mem _ h'')
          · exact Or.inr h''

/-- `minsert` preserves the sorted-keys invariant of the embedded
`std::map`. -/
theorem keySorted_minsert {A : Type} (l : List (Nat × A)) (k : Nat) (v : A)
    (hs : keySorted l) : keySorted (minsert l k v) := by
  induction l with
  | nil => simp [minsert, keySorted]
  | cons hd tl ih =>
      obtain ⟨k1, v1⟩ := hd
      simp only [keySorted, List.pairwise_cons] at hs
      obtain ⟨hlt, htl⟩ := hs
      simp only [minsert]
      split_ifs with h1 h2
      · simp only [keySorted, List.pairwise_cons]
        refine ⟨?_, fun q hq => hlt q hq, htl⟩
        intro q hq
        rcases List.mem_cons.mp hq with h' | h'
        · simpa [h'] using h1
        · exact h1.trans (hlt q h')
      · simp only [keySorted, List.pairwise_cons]
        exact ⟨fun q hq => hlt q hq, htl⟩
      · simp only [keySorted, List.pairwise_cons]
        refine ⟨?_, ?_⟩
        swap
        · exact ih htl
        intro q hq
        rcases mem_minsert tl k v q hq with h' | h'
        · exact hlt q h'
        · subst h'
          omega

/-- Looking up the inserted key after `minsert`: a fresh key maps to the new
value, an existing key keeps its old value (`std::map::insert` does not
overwrite). -/
theorem mfind_minsert_self {A : Type} (l : List (Nat × A)) (k : Nat) (v : A)
    (hs : keySorted l) :
    mfind (minsert l k v) k = some ((mfind l k).getD v) := by
  induction l with
  | nil => simp [minsert, mfind]
  | cons hd tl ih =>
      obtain ⟨k1, v1⟩ := hd
      simp only [keySorted, List.pairwise_cons] at hs
      obtain ⟨hlt, htl⟩ := hs
      simp only [minsert]
      split_ifs with h1 h2
      · have hnone : mfind ((k1, v1) :: tl) k = none := by
          refine mfind_eq_none _ _ ?_
          intro p hp
          rcases List.mem_cons.mp hp with h' | h'
          · subst h'
            omega
          · have := hlt p h'
            omega
        rw [hnone]
        simp [mfind]
      · subst h2
        simp [mfind]
      · have hne : k1 ≠ k := by omega
        simp only [mfind, if_neg hne]
        exact ih htl

/-- Inserting a key that is already present leaves the map unchanged. -/
theorem minsert_of_found {A : Type} (l : List (Nat × A)) (k : Nat) (v w : A)
    (hs : keySorted l) (hf : mfind l k = some w) : minsert l k v = l := by
  induction l with
  | nil => simp [mfind] at hf
  | cons hd tl ih =>
      obtain ⟨k1, v1⟩ := hd
      simp only [keySorted, List.pairwise_cons] at hs
      obtain ⟨hlt, htl⟩ := hs
      by_cases h2 : k1 = k
      · subst h2
        simp [minsert]
      · simp only [mfind, if_neg h2] at hf
        have h1 : ¬ k < k1 := by
          intro hcon
          have hnone : mfind tl k = none := by
            refine mfind_eq_none _ _ ?_
            intro p hp
            have := hlt p hp
            omega
          rw [hnone] at hf
          cases hf
        simp only [minsert, if_neg h1, if_neg (fun h : k = k1 => h2 h.symm)]
        rw [ih htl hf]

/-- `send_datagram` never modifies the resolution cache. -/
theorem send_datagram_ip2ether (st : NetworkInterface) (d nh : Nat) :
    (NetworkInterface.send_datagram st d nh).ip2ether = st.ip2ether := by
  unfold NetworkInterface.send_datagram
  split
  · rfl
  · split <;> rfl

/-- Flushing any queue of datagrams with `send_datagram` never modifies the
resolution cache. -/
theorem foldl_send_datagram_ip2ether (ds : List Nat) (st : NetworkInterface)
    (nh : Nat) :
    (ds.foldl (fun s d => NetworkInterface.send_datagram s d nh) st).ip2ether
      = st.ip2ether := by
  induction ds generalizing st with
  | nil => rfl
  | cons d ds ih =>
      rw [List.foldl_cons, ih, send_datagram_ip2ether]

/-- Every entry surviving `tickCache` has the key of an original entry. -/
theorem mem_tickCache (l : List (Nat × Nat × Nat)) (ms : Nat)
    (q : Nat × Nat × Nat) (h : q ∈ NetworkInterface.tickCache l ms) :
    ∃ p ∈ l, p.1 = q.1 := by
  induction l with
  | nil => simp [NetworkInterface.tickCache] at h
  | cons hd tl ih =>
      obtain ⟨ip, e1, a1⟩ := hd
      simp only [NetworkInterface.tickCache] at h
      split_ifs at h with h1
      · obtain ⟨p, hp, hk⟩ := ih h
        exact ⟨p, List.mem_cons_of_mem _ hp, hk⟩
      · rcases List.mem_cons.mp h with h' | h'
        · exact ⟨(ip, e1, a1), by simp, by simp [h']⟩
        · obtain ⟨p, hp, hk⟩ := ih h'
          exact ⟨p, List.mem_cons_of_mem _ hp, hk⟩

/-- `tickCache` preserves the sorted-keys invariant. -/
theorem keySorted_tickCache (l : List (Nat × Nat × Nat)) (ms : Nat)
    (hs : keySorted l) : keySorted (NetworkInterface.tickCache l ms) := by
  induction l with
  | nil => simp [NetworkInterface.tickCache, keySorted]
  | cons hd tl ih =>
      obtain ⟨ip, e1, a1⟩ := hd
      simp only [keySorted, List.pairwise_cons] at hs
      obtain ⟨hlt, htl⟩ := hs
      simp only [NetworkInterface.tickCache]
      split_ifs with h1
      · exact ih htl
      · simp only [keySorted, List.pairwise_cons]
        refine ⟨?_, ih htl⟩
        intro q hq
        obtain ⟨p, hp, hk⟩ := mem_tickCache tl ms q hq
        have := hlt p hp
        omega

/-- A key absent from the cache is still absent after one tick. -/
theorem mfind_tickCache_none (l : List (Nat × Nat × Nat)) (ms k : Nat)
    (h : mfind l k = none) :
    mfind (NetworkInterface.tickCache l ms) k = none := by
  induction l with
  | nil => rfl
  | cons hd tl ih =>
      obtain ⟨ip, e1, a1⟩ := hd
      by_cases h1 : ip = k
      · rw [mfind, if_pos h1] at h
        exact Option.noConfusion h
      · rw [mfind, if_neg h1] at h
        simp only [NetworkInterface.tickCache]
        by_cases h2 : 30000 ≤ a1 + ms
        · rw [if_pos h2]
          exact ih h
        · rw [if_neg h2, mfind, if_neg h1]
          exact ih h

/-- One cache tick either ages a present entry by `ms` or erases it when the
new age reaches 30000 ms. -/
theorem mfind_tickCache_some (l : List (Nat × Nat × Nat)) (ms k e a : Nat)
    (hs : keySorted l) (h : mfind l k = some (e, a)) :
    mfind (NetworkInterface.tickCache l ms) k =
      if 30000 ≤ a + ms then none else some (e, a + ms) := by
  induction l with
  | nil => simp [mfind] at h
  | cons hd tl ih =>
      obtain ⟨ip, e1, a1⟩ := hd
      simp only [keySorted, List.pairwise_cons] at hs
      obtain ⟨hlt, htl⟩ := hs
      simp only [mfind] at h
      by_cases h1 : ip = k
      · rw [if_pos h1] at h
        obtain ⟨he, ha⟩ : e1 = e ∧ a1 = a := by
          cases h
          exact ⟨rfl, rfl⟩
        subst he
        subst ha
        subst h1
        have hnone : mfind tl ip = none := by
          refine mfind_eq_none _ _ ?_
          intro p hp
          have := hlt p hp
          omega
        simp only [NetworkInterface.tickCache]
        split_ifs with h2
        · exact mfind_tickCache_none tl ms ip hnone
        · simp [mfind]
      · rw [if_neg h1] at h
        simp only [NetworkInterface.tickCache]
        by_cases h2 : 30000 ≤ a1 + ms
        · rw [if_pos h2]
          exact ih htl h
        · rw [if_neg h2, mfind, if_neg h1]
          exact ih htl h

/-- A key absent from the cache stays absent under any sequence of ticks. -/
theorem mfind_foldl_tick_none (ts : List Nat) (st : NetworkInterface)
    (ip : Nat) (h : mfind st.ip2ether ip = none) :
    mfind ((ts.foldl NetworkInterface.tick st).ip2ether) ip = none := by
  induction ts generalizing st with
  | nil => exact h
  | cons m ts ih =>
      rw [List.foldl_cons]
      exact ih _ (mfind_tickCache_none _ _ _ h)

/-- A cache entry of age `a < 30000` subjected to ticks of total duration
`ts.sum` survives with age `a + ts.sum` exactly when that total stays below
30000 ms, and has been erased otherwise. -/
theorem mfind_foldl_tick_some (ts : List Nat) (st : NetworkInterface)
    (ip e a : Nat) (hs : keySorted st.ip2ether)
    (h : mfind st.ip2ether ip = some (e, a)) (ha : a < 30000) :
    mfind ((ts.foldl NetworkInterface.tick st).ip2ether) ip =
      if 30000 ≤ a + ts.sum then none else some (e, a + ts.sum) := by
  induction ts generalizing st a with
  | nil =>
      simp only [List.foldl_nil, List.sum_nil]
      rw [if_neg (by omega)]
      simpa using h
  | cons m ts ih =>
      rw [List.foldl_cons, List.sum_cons]
      have hstep : mfind ((NetworkInterface.tick st m).ip2ether) ip =
          if 30000 ≤ a + m then none else some (e, a + m) :=
        mfind_tickCache_some st.ip2ether m ip e a hs h
      by_cases h2 : 30000 ≤ a + m
      · rw [if_pos h2] at hstep
        rw [if_pos (by omega)]
        exact mfind_foldl_tick_none ts _ ip hstep
      · rw [if_neg h2] at hstep
        have hres := ih (NetworkInterface.tick st m) (a + m)
          (keySorted_tickCache st.ip2ether m hs) hstep (by omega)
        rw [hres]
        by_cases h3 : 30000 ≤ a + (m + ts.sum)
        · rw [if_pos (by omega), if_pos h3]
        · rw [if_neg (by omega), if_neg h3]
          have : a + m + ts.sum = a + (m + ts.sum) := by omega
          rw [this]

/-- Counterexample to C5 as stated: the source uses `std::map::insert`, which
does not overwrite.  Receiving an ARP request from sender IP 5 with Ethernet
address 6 while the cache already maps 5 to (Ethernet 7, age 9000) leaves the
old entry untouched: the address is not updated to 6 and the age is not
restarted. -/
theorem C5_no_refresh_counterexample :
    (NetworkInterface.recv_frame
        { ethernet_address := 1
          ip_address := 2
          ip2ether := [(5, (7, 9000))]
          arp_timer := []
          waited_dgrams := []
          out_frames := [] }
        { dst := 1
          src := 6
          typ := 2054
          payload := EPayload.arp
            { opcode := 1
              sender_ethernet_address := 6
              sender_ip_address := 5
              target_ethernet_address := 0
              target_ip_address := 99 } }).1.ip2ether
      = [(5, (7, 9000))] ∧ (6 : Nat) ≠ 7 ∧ (9000 : Nat) ≠ 0 := by
  refine ⟨rfl, by decide, by decide⟩

/-- C5 (amended): for every accepted, successfully parsed ARP frame (request
or reply), the resolution-cache entry for the sender IP afterwards holds the
sender's mapping with age 0 if no entry existed, and the PREVIOUS entry
unchanged (no refresh, no age restart) if one already existed. -/
theorem C5_learn_only_if_absent (st : NetworkInterface)
    (frame : EthernetFrame) (msg : ARPMessage)
    (hs : keySorted st.ip2ether)
    (hacc : frame.dst = st.ethernet_address ∨ frame.dst = ETHERNET_BROADCAST)
    (htyp : frame.typ = EthernetHeader.TYPE_ARP)
    (hpay : frame.payload = EPayload.arp msg) :
    mfind (NetworkInterface.recv_frame st frame).1.ip2ether
        msg.sender_ip_address
      = some ((mfind st.ip2ether msg.sender_ip_address).getD
          (msg.sender_ethernet_address, 0)) := by
  have hnot : ¬ (frame.dst ≠ st.ethernet_address ∧
      frame.dst ≠ ETHERNET_BROADCAST) := by
    rcases hacc with h | h <;> simp [h]
  have hip : ¬ frame.typ = EthernetHeader.TYPE_IPv4 := by
    rw [htyp]
    decide
  have hbase := mfind_minsert_self st.ip2ether msg.sender_ip_address
    (msg.sender_ethernet_address, 0) hs
  by_cases hreq : msg.opcode = ARPMessage.OPCODE_REQUEST
  · by_cases htgt : msg.target_ip_address = st.ip_address <;>
      · simp only [NetworkInterface.recv_frame, if_neg hnot, if_neg hip,
          if_pos htyp, hpay, if_pos hreq, htgt]
        simpa using hbase
  · by_cases hrep : msg.opcode = ARPMessage.OPCODE_REPLY
    · simp only [NetworkInterface.recv_frame, if_neg hnot, if_neg hip,
        if_pos htyp, hpay, if_neg hreq, if_pos hrep,
        foldl_send_datagram_ip2ether]
      rw [minsert_of_found _ _ _ _ (keySorted_minsert _ _ _ hs) hbase]
      exact hbase
    · simp only [NetworkInterface.recv_frame, if_neg hnot, if_neg hip,
        if_pos htyp, hpay, if_neg hreq, if_neg hrep]
      exact hbase

/-- Witness for C5 (amended): an ARP request from a sender not yet in the
cache creates the mapping with age 0. -/
theorem C5_learn_only_if_absent_witness :
    mfind (NetworkInterface.recv_frame
        { ethernet_address := 1
          ip_address := 2
          ip2ether := []
          arp_timer := []
          waited_dgrams := []
          out_frames := [] }
        { dst := 1
          src := 6
          typ := 2054
          payload := EPayload.arp
            { opcode := 1
              sender_ethernet_address := 6
              sender_ip_address := 5
              target_ethernet_address := 0
              target_ip_address := 99 } }).1.ip2ether 5
      = some ((mfind ([] : List (Nat × Nat × Nat)) 5).getD (6, 0)) :=
  C5_learn_only_if_absent ⟨1, 2, [], [], [], []⟩
    ⟨1, 6, 2054, EPayload.arp ⟨1, 6, 5, 0, 99⟩⟩ ⟨1, 6, 5, 0, 99⟩
    (by simp [keySorted]) (Or.inl rfl) rfl rfl

/-- C6: from a fresh interface, sending two datagrams to the same unresolved
IP with less than 5000 ms between them enqueues exactly one frame — the
broadcast ARP request — and after a matching ARP reply from `ethAddr` the
queue holds exactly that request followed by the two IPv4 frames carrying
`d1` then `d2`, unicast to `ethAddr`, in the original send order. -/
theorem C6_single_request_then_ordered_flush
    (selfEth selfIp ip ethAddr d1 d2 t : Nat) (ht : t < 5000) :
    (NetworkInterface.send_datagram
        (NetworkInterface.tick
          (NetworkInterface.send_datagram
            ⟨selfEth, selfIp, [], [], [], []⟩ d1 ip) t) d2 ip).out_frames
      = [{ dst := ETHERNET_BROADCAST, src := selfEth,
           typ := EthernetHeader.TYPE_ARP,
           payload := EPayload.arp
             { opcode := ARPMessage.OPCODE_REQUEST,
               sender_ethernet_address := selfEth,
               sender_ip_address := selfIp,
               target_ethernet_address := 0,
               target_ip_address := ip } }] ∧
    (NetworkInterface.recv_frame
        (NetworkInterface.send_datagram
          (NetworkInterface.tick
            (NetworkInterface.send_datagram
              ⟨selfEth, selfIp, [], [], [], []⟩ d1 ip) t) d2 ip)
        { dst := selfEth, src := ethAddr, typ := EthernetHeader.TYPE_ARP,
          payload := EPayload.arp
            { opcode := ARPMessage.OPCODE_REPLY,
              sender_ethernet_address := ethAddr,
              sender_ip_address := ip,
              target_ethernet_address := selfEth,
              target_ip_address := selfIp } }).1.out_frames
      = [{ dst := ETHERNET_BROADCAST, src := selfEth,
           typ := EthernetHeader.TYPE_ARP,
           payload := EPayload.arp
             { opcode := ARPMessage.OPCODE_REQUEST,
               sender_ethernet_address := selfEth,
               sender_ip_address := selfIp,
               target_ethernet_address := 0,
               target_ip_address := ip } },
         { dst := ethAddr, src := selfEth, typ := EthernetHeader.TYPE_IPv4,
           payload := EPayload.ipv4 d1 },
         { dst := ethAddr, src := selfEth, typ := EthernetHeader.TYPE_IPv4,
           payload := EPayload.ipv4 d2 }] := by
  have ht5 : ¬ (5000 ≤ t) := by omega
  simp [NetworkInterface.send_datagram, NetworkInterface.recv_frame,
    NetworkInterface.tick, NetworkInterface.tickCache,
    NetworkInterface.tickTimer, mfind, minsert, mappend, merase,
    EthernetHeader.TYPE_ARP, EthernetHeader.TYPE_IPv4,
    ARPMessage.OPCODE_REQUEST, ARPMessage.OPCODE_REPLY, ht5]

/-- Witness for C6 with a 1000 ms gap between the two sends. -/
theorem C6_single_request_then_ordered_flush_witness :
    (NetworkInterface.send_datagram
        (NetworkInterface.tick
          (NetworkInterface.send_datagram
            ⟨10, 20, [], [], [], []⟩ 101 77) 1000) 102 77).out_frames
      = [{ dst := ETHERNET_BROADCAST, src := 10,
           typ := EthernetHeader.TYPE_ARP,
           payload := EPayload.arp
             { opcode := ARPMessage.OPCODE_REQUEST,
               sender_ethernet_address := 10,
               sender_ip_address := 20,
               target_ethernet_address := 0,
               target_ip_address := 77 } }] ∧
    (NetworkInterface.recv_frame
        (NetworkInterface.send_datagram
          (NetworkInterface.tick
            (NetworkInterface.send_datagram
              ⟨10, 20, [], [], [], []⟩ 101 77) 1000) 102 77)
        { dst := 10, src := 55, typ := EthernetHeader.TYPE_ARP,
          payload := EPayload.arp
            { opcode := ARPMessage.OPCODE_REPLY,
              sender_ethernet_address := 55,
              sender_ip_address := 77,
              target_ethernet_address := 10,
              target_ip_address := 20 } }).1.out_frames
      = [{ dst := ETHERNET_BROADCAST, src := 10,
           typ := EthernetHeader.TYPE_ARP,
           payload := EPayload.arp
             { opcode := ARPMessage.OPCODE_REQUEST,
               sender_ethernet_address := 10,
               sender_ip_address := 20,
               target_ethernet_address := 0,
               target_ip_address := 77 } },
         { dst := 55, src := 10, typ := EthernetHeader.TYPE_IPv4,
           payload := EPayload.ipv4 101 },
         { dst := 55, src := 10, typ := EthernetHeader.TYPE_IPv4,
           payload := EPayload.ipv4 102 }] :=
  C6_single_request_then_ordered_flush 10 20 77 55 101 102 1000 (by decide)

/-- C7: a resolution-cache entry learned (age 0) for `ip` survives any
sequence of caller-chosen tick intervals while their total stays strictly
below 30000 ms — and `send_datagram` then uses it, enqueueing the unicast
IPv4 frame immediately — and the entry is gone once the accumulated time
reaches 30000 ms. -/
theorem C7_cache_entry_30s_lifetime (st : NetworkInterface) (ip e : Nat)
    (ts : List Nat) (hs : keySorted st.ip2ether)
    (h0 : mfind st.ip2ether ip = some (e, 0)) :
    (ts.sum < 30000 →
      mfind ((ts.foldl NetworkInterface.tick st).ip2ether) ip
          = some (e, ts.sum) ∧
      ∀ d, (NetworkInterface.send_datagram
              (ts.foldl NetworkInterface.tick st) d ip).out_frames
        = (ts.foldl NetworkInterface.tick st).out_frames ++
          [{ dst := e,
             src := (ts.foldl NetworkInterface.tick st).ethernet_address,
             typ := EthernetHeader.TYPE_IPv4,
             payload := EPayload.ipv4 d }]) ∧
    (30000 ≤ ts.sum →
      mfind ((ts.foldl NetworkInterface.tick st).ip2ether) ip = none) := by
  have hkey := mfind_foldl_tick_some ts st ip e 0 hs h0 (by omega)
  constructor
  · intro hlt
    rw [if_neg (by omega)] at hkey
    refine ⟨by simpa using hkey, ?_⟩
    intro d
    unfold NetworkInterface.send_datagram
    rw [show (0 : Nat) + ts.sum = ts.sum from by omega] at hkey
    rw [hkey]
  · intro hge
    rw [if_pos (by omega)] at hkey
    exact hkey

/-- Witness for C7: an entry of age 0 ticked by 20000 + 10000 ms is gone. -/
theorem C7_cache_entry_30s_lifetime_witness :
    mfind (([20000, 10000].foldl NetworkInterface.tick
        ⟨1, 2, [(5, (7, 0))], [], [], []⟩).ip2ether) 5 = none :=
  (C7_cache_entry_30s_lifetime ⟨1, 2, [(5, (7, 0))], [], [], []⟩ 5 7
    [20000, 10000] (by simp [keySorted]) rfl).2 (by decide)

/-- C8: a frame whose destination is neither this interface's Ethernet
address nor the broadcast address is ignored: `recv_frame` returns nothing
and the entire interface state — cache, timers, queues — is unchanged. -/
theorem C8_unaddressed_frame_no_effect (st : NetworkInterface)
    (frame : EthernetFrame) (h1 : frame.dst ≠ st.ethernet_address)
    (h2 : frame.dst ≠ ETHERNET_BROADCAST) :
    NetworkInterface.recv_frame st frame = (st, none) := by
  unfold NetworkInterface.recv_frame
  rw [if_pos ⟨h1, h2⟩]

/-- Witness for C8: a unicast frame for Ethernet address 3 is ignored by the
interface with Ethernet address 1. -/
theorem C8_unaddressed_frame_no_effect_witness :
    NetworkInterface.recv_frame ⟨1, 2, [], [], [], []⟩
        { dst := 3, src := 4, typ := EthernetHeader.TYPE_IPv4,
          payload := EPayload.ipv4 9 }
      = (⟨1, 2, [], [], [], []⟩, none) :=
  C8_unaddressed_frame_no_effect ⟨1, 2, [], [], [], []⟩
    { dst := 3, src := 4, typ := EthernetHeader.TYPE_IPv4,
      payload := EPayload.ipv4 9 } (by decide) (by decide)
